import Mathlib

/-
Verification of `src/6/async_http_mod.py`: an asynchronous URL fetcher with
a bounded-concurrency semaphore, a linear-backoff retry loop, an incremental
JSONL sink and run statistics.  The Python code is shallowly embedded below:
the retry loop of `URLFetcher._fetch_single_url` becomes a structurally
recursive function instrumented with an event trace (one event per
`session.get` call, per `asyncio.sleep`, and for the post-loop fallback),
and the result-draining loop of `URLFetcher.fetch_urls` becomes a fold over
the arrival-ordered list of `FetchResult`s.  The external collaborators
(the aiohttp transport and `json.loads`) are parameters of the embedding,
exactly as the spec treats them as black boxes.  The semaphore discipline is
modelled separately as a small-step transition system whose transitions
mirror the placement of acquire and release in the source.
-/

namespace AsyncHttpMod

/-- Model of a Python object as produced by the JSON parser `json.loads`.
`PyVal.none` is the Python value `None`, which is simultaneously the parse
result of the JSON text `null` (the documented stdlib mapping) and the
default value of the optional fields of the `FetchResult` dataclass in the
source. -/
inductive PyVal where
  | none
  | bool (b : Bool)
  | int (n : Int)
  | str (s : String)
  | list (xs : List PyVal)
  | dict (entries : List (String × PyVal))

/-- The Python test `x is not None`, specialised to `PyVal` (negated form). -/
def PyVal.isNone : PyVal → Bool
  | PyVal.none => true
  | _ => false

/-- One observable outcome of a call to `session.get` inside
`URLFetcher._fetch_single_url` (source lines 73 and 104-124): a response
carrying a status code and a body text, or one of the three exception
classes the source handles (`asyncio.TimeoutError`, `aiohttp.ClientError`,
any other `Exception`). -/
inductive TransportOutcome where
  | response (status : Nat) (body : String)
  | timeout
  | clientError (detail : String)
  | otherError (detail : String)

/-- Instrumentation events recorded by the embedded fetch loop, in program
order: one `transportCall` per `session.get` call (line 73), one `sleepEv`
per `asyncio.sleep` call (line 136) recording the loop variable and the
slept duration, and one `fallbackReturn` if the code after the loop (lines
139-144) ever executes. -/
inductive FetchEvent where
  | transportCall (attempt : Nat)
  | sleepEv (attempt : Nat) (delay : Nat)
  | fallbackReturn
  deriving DecidableEq

/-- Configuration accepted by `URLFetcher.__init__` (lines 33-48).  The
aiohttp timeout object is opaque to every claim and is omitted. -/
structure FetcherConfig where
  max_concurrent : Nat := 5
  max_retries : Nat := 2

/-- The backoff unit: the literal `1` in `asyncio.sleep(1 * (attempt + 1))`
at line 136.  The spec names this configuration value `baseDelay` with
default 1 second; in the source it is the fixed literal 1. -/
def baseDelay : Nat := 1

/-- The dataclass `FetchResult` (lines 19-27).  The wall-clock field
`response_time` is not modelled.  `content` stores the Python object held
by the field, `PyVal.none` standing for the Python `None` default. -/
structure FetchResult where
  url : String
  success : Bool
  content : PyVal := PyVal.none
  error : Option String := Option.none

/-- Outcome of one iteration body of the retry loop before the
terminal-attempt test: either a parsed success, or a retryable failure
carrying the exact `error_msg` string the source computes (lines 74-132). -/
inductive AttemptOutcome where
  | success (content : PyVal)
  | failure (msg : String)

/-- Classification of one transport outcome, following lines 74-132 of
`_fetch_single_url`: a 200 response with a parsable body is a success; a
200 response with an unparsable body yields `"Invalid JSON: <detail>"`
(line 86); any other status yields `"HTTP <status>"` (line 95); the three
exception handlers yield `"Timeout"`, `"Client error: <detail>"` and
`"Unexpected error: <detail>"` (lines 105, 115, 125).  `loads` stands for
the external `json.loads`. -/
def classifyAttempt (loads : String → Except String PyVal) :
    TransportOutcome → AttemptOutcome
  | TransportOutcome.response status body =>
      if status = 200 then
        match loads body with
        | Except.ok v => AttemptOutcome.success v
        | Except.error e => AttemptOutcome.failure ("Invalid JSON: " ++ e)
      else AttemptOutcome.failure ("HTTP " ++ toString status)
  | TransportOutcome.timeout => AttemptOutcome.failure "Timeout"
  | TransportOutcome.clientError d => AttemptOutcome.failure ("Client error: " ++ d)
  | TransportOutcome.otherError d => AttemptOutcome.failure ("Unexpected error: " ++ d)

/-- The retry loop `for attempt in range(self.max_retries + 1)` of
`_fetch_single_url` (lines 70-144), embedded by structural recursion on the
number of remaining loop iterations (`fuel`); `attempt` is the loop
variable.  When the iterations are exhausted the function reaches the
fallback after the loop (lines 139-144), recorded by a `fallbackReturn`
event.  Within an iteration: a success returns immediately (lines 79-84); a
failure returns if `attempt == self.max_retries` (the repeated guard at
lines 87, 96, 106, 116, 126); otherwise the loop sleeps
`1 * (attempt + 1)` seconds when `attempt < self.max_retries` (lines
135-136) and proceeds to the next iteration.  `transport k` is the outcome
of the `session.get` performed by iteration `k`. -/
def fetchAux (cfg : FetcherConfig) (loads : String → Except String PyVal)
    (transport : Nat → TransportOutcome) (url : String) :
    Nat → Nat → FetchResult × List FetchEvent
  | 0, _ =>
      ({ url := url, success := false, error := some "Max retries exceeded" },
       [FetchEvent.fallbackReturn])
  | fuel + 1, attempt =>
      match classifyAttempt loads (transport attempt) with
      | AttemptOutcome.success v =>
          ({ url := url, success := true, content := v },
           [FetchEvent.transportCall attempt])
      | AttemptOutcome.failure msg =>
          if attempt = cfg.max_retries then
            ({ url := url, success := false, error := some msg },
             [FetchEvent.transportCall attempt])
          else
            ((fetchAux cfg loads transport url fuel (attempt + 1)).1,
             FetchEvent.transportCall attempt ::
               ((if attempt < cfg.max_retries then
                   [FetchEvent.sleepEv attempt (baseDelay * (attempt + 1))]
                 else []) ++ (fetchAux cfg loads transport url fuel (attempt + 1)).2))

/-- The method `URLFetcher._fetch_single_url` (lines 64-144): the loop runs
over `attempt = 0, 1, ..., max_retries`, so it starts with
`max_retries + 1` iterations of fuel at loop variable 0.  Returns the
terminal `FetchResult` together with the instrumentation trace. -/
def _fetch_single_url (cfg : FetcherConfig) (loads : String → Except String PyVal)
    (transport : Nat → TransportOutcome) (url : String) :
    FetchResult × List FetchEvent :=
  fetchAux cfg loads transport url (cfg.max_retries + 1) 0

/-- One line of the JSONL sink: the dict
`{"url": result.url, "content": result.content}` written at lines 173-174. -/
structure SinkRecord where
  url : String
  content : PyVal

/-- The `stats` dict built at line 159.  The wall-clock entry `total_time`
is not modelled. -/
structure RunStats where
  total : Nat
  successful : Nat
  failed : Nat

/-- The body of the result-draining loop of `URLFetcher.fetch_urls` (lines
168-182): if `result.success and result.content is not None`, append one
record to the sink and increment `successful`; otherwise increment
`failed`. -/
def processResult (acc : RunStats × List SinkRecord) (r : FetchResult) :
    RunStats × List SinkRecord :=
  if r.success && !(PyVal.isNone r.content) then
    ({ acc.1 with successful := acc.1.successful + 1 },
     acc.2 ++ [{ url := r.url, content := r.content }])
  else
    ({ acc.1 with failed := acc.1.failed + 1 }, acc.2)

/-- The sink decision of lines 172-174 as a record-producing function, for
stating what the sink contains. -/
def writeRecord (r : FetchResult) : Option SinkRecord :=
  if r.success && !(PyVal.isNone r.content) then
    some { url := r.url, content := r.content }
  else
    Option.none

/-- The method `URLFetcher.fetch_urls` (lines 146-185): `stats` starts as
`total = len(urls), successful = 0, failed = 0` (line 159) and the sink
starts truncated-empty (`open(output_file, "w")`, line 167); the results
are then drained in completion order (`asyncio.as_completed`, line 168).
`arrival` is that completion-ordered list of terminal results, a
permutation of the per-URL results. -/
def fetch_urls (urls : List String) (arrival : List FetchResult) :
    RunStats × List SinkRecord :=
  arrival.foldl processResult
    ({ total := urls.length, successful := 0, failed := 0 }, [])

/-- The multiset of terminal results of one run: one `_fetch_single_url`
result per input URL (line 164), with `transports u` the transport
behaviour observed by URL `u`. -/
def runResults (cfg : FetcherConfig) (loads : String → Except String PyVal)
    (transports : String → Nat → TransportOutcome) (urls : List String) :
    List FetchResult :=
  urls.map (fun u => (_fetch_single_url cfg loads (transports u) u).1)

/-- Number of `session.get` calls recorded in a trace. -/
def callCount (evs : List FetchEvent) : Nat :=
  (evs.filter (fun e =>
    match e with
    | FetchEvent.transportCall _ => true
    | _ => false)).length

/-- Whether a transport outcome leads to the success branch of the loop
body: status 200 and a body that `loads` parses. -/
def isSuccessOutcome (loads : String → Except String PyVal) :
    TransportOutcome → Bool
  | TransportOutcome.response status body =>
      status == 200 &&
        (match loads body with
         | Except.ok _ => true
         | Except.error _ => false)
  | _ => false

/-- Phase of one fetch task relative to the semaphore
`asyncio.Semaphore(max_concurrent)` (line 48).  `pending` covers a task
before or while awaiting `acquire` (entry of `async with self.semaphore`,
line 72); `exchanging` covers the body of that `async with`, i.e. the
transport exchange (lines 73-132); `backoff` covers the
`asyncio.sleep` between attempts (line 136), which the source places
outside the `async with`, so the slot is already released; `finished`
covers a task after its terminal return. -/
inductive TaskPhase where
  | pending
  | exchanging
  | backoff
  | finished
  deriving DecidableEq

/-- Whether a task is currently inside a transport exchange. -/
def isEx : TaskPhase → Bool
  | TaskPhase.exchanging => true
  | _ => false

/-- Number of tasks currently inside a transport exchange. -/
def countEx (l : List TaskPhase) : Nat := (l.filter isEx).length

/-- Global state of one run: the free-slot count of the semaphore and the
phase of every fetch task. -/
structure SemState where
  sem : Nat
  tasks : List TaskPhase

/-- Interleaving semantics of the run, one scheduled task at a time.  Each
transition mirrors the source: `acquire` enters `async with self.semaphore`
(line 72) and needs a free slot; `exchangeRetry` leaves the `async with`
block after a retryable outcome, releasing the slot, and proceeds to the
backoff sleep (line 136); `exchangeDone` leaves the block with the slot
released and returns a terminal result; `wake` ends the backoff sleep and
loops back to re-acquire for the next attempt.  There is no transition out
of `exchanging` that keeps the slot, and no transition into `backoff` from
anywhere but the release: sleeping never holds a slot. -/
inductive SemStep : SemState → SemState → Prop
  | acquire (s : Nat) (pre post : List TaskPhase) :
      SemStep ⟨s + 1, pre ++ TaskPhase.pending :: post⟩
        ⟨s, pre ++ TaskPhase.exchanging :: post⟩
  | exchangeRetry (s : Nat) (pre post : List TaskPhase) :
      SemStep ⟨s, pre ++ TaskPhase.exchanging :: post⟩
        ⟨s + 1, pre ++ TaskPhase.backoff :: post⟩
  | exchangeDone (s : Nat) (pre post : List TaskPhase) :
      SemStep ⟨s, pre ++ TaskPhase.exchanging :: post⟩
        ⟨s + 1, pre ++ TaskPhase.finished :: post⟩
  | wake (s : Nat) (pre post : List TaskPhase) :
      SemStep ⟨s, pre ++ TaskPhase.backoff :: post⟩
        ⟨s, pre ++ TaskPhase.pending :: post⟩

/-- Start of a run: the semaphore holds `maxConcurrent` free slots (line
48) and all `n` tasks are pending (line 164). -/
def initState (maxConcurrent n : Nat) : SemState :=
  ⟨maxConcurrent, List.replicate n TaskPhase.pending⟩

/-- States a run with `n` URLs and budget `maxConcurrent` can reach. -/
def Reachable (maxConcurrent n : Nat) (s : SemState) : Prop :=
  Relation.ReflTransGen SemStep (initState maxConcurrent n) s

/-- Concrete stand-in for the external `json.loads` on the body texts used
by the concrete runs below, agreeing with the documented stdlib behaviour:
the JSON text `null` parses to the Python value `None`, the text `1`
parses to the integer 1, and the remaining texts used here fail to parse
with a detail message. -/
def loadsDemo : String → Except String PyVal
  | "null" => Except.ok PyVal.none
  | "1" => Except.ok (PyVal.int 1)
  | s => Except.error ("Expecting value: " ++ s)

/-- Configuration with the source defaults (`max_concurrent = 5`,
`max_retries = 2`). -/
def cfgDefault : FetcherConfig := {}

/-- Transport that always answers 200 with the body `null`. -/
def trNull : Nat → TransportOutcome :=
  fun _ => TransportOutcome.response 200 "null"

/-- Transport that always answers 200 with the body `1`. -/
def trOne : Nat → TransportOutcome :=
  fun _ => TransportOutcome.response 200 "1"

/-- Transport that always times out. -/
def trTimeout : Nat → TransportOutcome :=
  fun _ => TransportOutcome.timeout

/-- Transport that always answers 200 with an unparsable body. -/
def trBadBody : Nat → TransportOutcome :=
  fun _ => TransportOutcome.response 200 "garbage"

/-- Per-URL transport behaviour for the concrete two-URL run: URL `a`
always succeeds with body `1`, URL `b` always times out. -/
def transportsDemo : String → Nat → TransportOutcome
  | "a" => trOne
  | _ => trTimeout

/-- Boolean test that the character list `p` is an initial segment of `l`,
used to decide the shape predicates on error strings. -/
def leadMatch : List Char → List Char → Bool
  | [], _ => true
  | _ :: _, [] => false
  | a :: as, b :: bs => a == b && leadMatch as bs

/-- The string `e` starts with the pattern `pat` followed by some detail. -/
def hasForm (pat e : String) : Prop := ∃ d : String, e = pat ++ d

/-- The error-string taxonomy exactly as the spec lists it for terminal
failures: `HTTP <code>`, `Timeout`, `Client error: <detail>`,
`Invalid content: <detail>`, `Unexpected error: <detail>`. -/
def specifiedErrorForm (e : String) : Prop :=
  hasForm "HTTP " e ∨ e = "Timeout" ∨ hasForm "Client error: " e ∨
    hasForm "Invalid content: " e ∨ hasForm "Unexpected error: " e

/-- The error-string taxonomy the source actually produces: as above but
with `Invalid JSON: <detail>` (line 86) in place of
`Invalid content: <detail>`. -/
def codeErrorForm (e : String) : Prop :=
  hasForm "HTTP " e ∨ e = "Timeout" ∨ hasForm "Client error: " e ∨
    hasForm "Invalid JSON: " e ∨ hasForm "Unexpected error: " e

lemma str_ext {a b : String} (h : a.data = b.data) : a = b := by
  cases a; cases b; exact congrArg String.mk h

lemma str_data_append (a b : String) : (a ++ b).data = a.data ++ b.data := by
  cases a; cases b; rfl

lemma leadMatch_iff (p : List Char) : ∀ l, leadMatch p l = true ↔ ∃ t, l = p ++ t := by
  induction p with
  | nil => intro l; simp [leadMatch]
  | cons a as ih =>
      intro l
      cases l with
      | nil => simp [leadMatch]
      | cons b bs =>
          simp only [leadMatch, Bool.and_eq_true, beq_iff_eq, ih, List.cons_append,
            List.cons.injEq]
          constructor
          · rintro ⟨rfl, t, rfl⟩; exact ⟨t, rfl, rfl⟩
          · rintro ⟨t, rfl, rfl⟩; exact ⟨rfl, t, rfl⟩

lemma hasForm_iff (pat e : String) : hasForm pat e ↔ leadMatch pat.data e.data = true := by
  constructor
  · rintro ⟨d, rfl⟩
    exact (leadMatch_iff _ _).mpr ⟨d.data, str_data_append pat d⟩
  · intro h
    obtain ⟨t, ht⟩ := (leadMatch_iff _ _).mp h
    refine ⟨⟨t⟩, str_ext ?_⟩
    rw [str_data_append, ht]

lemma callCount_nil : callCount [] = 0 := rfl

lemma callCount_cons_call (a : Nat) (l : List FetchEvent) :
    callCount (FetchEvent.transportCall a :: l) = callCount l + 1 := by
  simp [callCount, List.filter_cons]

lemma callCount_cons_sleep (a d : Nat) (l : List FetchEvent) :
    callCount (FetchEvent.sleepEv a d :: l) = callCount l := by
  simp [callCount, List.filter_cons]

lemma callCount_append (l1 l2 : List FetchEvent) :
    callCount (l1 ++ l2) = callCount l1 + callCount l2 := by
  simp [callCount, List.filter_append]

lemma callCount_fetchAux_le (cfg : FetcherConfig) (loads : String → Except String PyVal)
    (transport : Nat → TransportOutcome) (url : String) :
    ∀ fuel attempt, callCount (fetchAux cfg loads transport url fuel attempt).2 ≤ fuel := by
  intro fuel
  induction fuel with
  | zero => intro attempt; simp [fetchAux, callCount]
  | succ n ih =>
      intro attempt
      simp only [fetchAux]
      split
      · simp [callCount]
      · split
        · simp [callCount]
        · have h := ih (attempt + 1)
          simp only [callCount, List.filter_cons, List.filter_append] at h ⊢
          split
          · simp only [List.length_cons, List.length_append]
            split <;> simp_all
          · simp_all

lemma fetchAux_no_fallback (cfg : FetcherConfig) (loads : String → Except String PyVal)
    (transport : Nat → TransportOutcome) (url : String) :
    ∀ fuel attempt, attempt ≤ cfg.max_retries → attempt + fuel = cfg.max_retries + 1 →
      FetchEvent.fallbackReturn ∉ (fetchAux cfg loads transport url fuel attempt).2 := by
  intro fuel
  induction fuel with
  | zero => intro attempt h1 h2; omega
  | succ n ih =>
      intro attempt h1 h2
      simp only [fetchAux]
      split
      · simp
      · split
        · simp
        · rename_i hne
          simp only [List.mem_cons, List.mem_append]
          rintro (h | h | h)
          · exact FetchEvent.noConfusion h
          · split at h <;> simp_all
          · exact ih (attempt + 1) (by omega) (by omega) h

lemma sleepEv_mem_fetchAux (cfg : FetcherConfig) (loads : String → Except String PyVal)
    (transport : Nat → TransportOutcome) (url : String) :
    ∀ fuel attempt k d,
      FetchEvent.sleepEv k d ∈ (fetchAux cfg loads transport url fuel attempt).2 →
      k < cfg.max_retries ∧ d = baseDelay * (k + 1) := by
  intro fuel
  induction fuel with
  | zero => intro attempt k d h; simp [fetchAux] at h
  | succ n ih =>
      intro attempt k d h
      simp only [fetchAux] at h
      split at h
      · simp at h
      · split at h
        · simp at h
        · simp only [List.mem_cons, List.mem_append] at h
          rcases h with h | h | h
          · exact FetchEvent.noConfusion h
          · split at h
            · rename_i hlt
              simp only [List.mem_singleton, FetchEvent.sleepEv.injEq] at h
              obtain ⟨rfl, rfl⟩ := h
              exact ⟨hlt, rfl⟩
            · simp at h
          · exact ih (attempt + 1) k d h

lemma call_implies_sleep (cfg : FetcherConfig) (loads : String → Except String PyVal)
    (transport : Nat → TransportOutcome) (url : String) :
    ∀ fuel attempt j, attempt ≤ cfg.max_retries → attempt + fuel = cfg.max_retries + 1 →
      attempt < j →
      FetchEvent.transportCall j ∈ (fetchAux cfg loads transport url fuel attempt).2 →
      FetchEvent.sleepEv (j - 1) (baseDelay * j) ∈
        (fetchAux cfg loads transport url fuel attempt).2 := by
  intro fuel
  induction fuel with
  | zero => intro attempt j h1 h2 h3 h4; omega
  | succ n ih =>
      intro attempt j h1 h2 h3 h4
      cases hcl : classifyAttempt loads (transport attempt) with
      | success v =>
          simp only [fetchAux, hcl] at h4
          simp only [List.mem_singleton, FetchEvent.transportCall.injEq] at h4
          omega
      | failure msg =>
          by_cases heq : attempt = cfg.max_retries
          · simp only [fetchAux, hcl, if_pos heq] at h4
            simp only [List.mem_singleton, FetchEvent.transportCall.injEq] at h4
            omega
          · have hlt : attempt < cfg.max_retries := by omega
            simp only [fetchAux, hcl, if_neg heq, if_pos hlt] at h4 ⊢
            by_cases hj : j = attempt + 1
            · subst hj
              simp only [List.mem_cons, List.mem_append, List.mem_singleton]
              right; left; left
              simp
            · have h4m : FetchEvent.transportCall j ∈
                  (fetchAux cfg loads transport url n (attempt + 1)).2 := by
                simp only [List.mem_cons, List.mem_append, List.not_mem_nil,
                  or_false] at h4
                rcases h4 with h | h | h
                · exact absurd (FetchEvent.transportCall.inj h) (by omega)
                · exact FetchEvent.noConfusion h
                · exact h
              have hs := ih (attempt + 1) j (by omega) (by omega) (by omega) h4m
              simp only [List.mem_cons, List.mem_append, List.mem_singleton]
              right; right
              exact hs

lemma classify_success (loads : String → Except String PyVal) (o : TransportOutcome)
    (v : PyVal) (h : classifyAttempt loads o = AttemptOutcome.success v) :
    ∃ body, o = TransportOutcome.response 200 body ∧ loads body = Except.ok v := by
  cases o with
  | response s b =>
      by_cases hs : s = 200
      · subst hs
        simp only [classifyAttempt, if_pos rfl] at h
        cases hl : loads b with
        | ok w =>
            rw [hl] at h
            exact ⟨b, rfl, by rw [hl, AttemptOutcome.success.inj h]⟩
        | error e => rw [hl] at h; exact AttemptOutcome.noConfusion h
      · simp only [classifyAttempt, if_neg hs] at h
        exact AttemptOutcome.noConfusion h
  | timeout => exact AttemptOutcome.noConfusion h
  | clientError d => exact AttemptOutcome.noConfusion h
  | otherError d => exact AttemptOutcome.noConfusion h

lemma classify_failure_form (loads : String → Except String PyVal) (o : TransportOutcome)
    (m : String) (h : classifyAttempt loads o = AttemptOutcome.failure m) :
    codeErrorForm m := by
  cases o with
  | response s b =>
      by_cases hs : s = 200
      · subst hs
        simp only [classifyAttempt, if_pos rfl] at h
        cases hl : loads b with
        | ok w => rw [hl] at h; exact AttemptOutcome.noConfusion h
        | error e =>
            rw [hl] at h
            refine Or.inr (Or.inr (Or.inr (Or.inl ⟨e, ?_⟩)))
            exact (AttemptOutcome.failure.inj h).symm
      · simp only [classifyAttempt, if_neg hs] at h
        exact Or.inl ⟨toString s, (AttemptOutcome.failure.inj h).symm⟩
  | timeout =>
      exact Or.inr (Or.inl (AttemptOutcome.failure.inj h).symm)
  | clientError d =>
      exact Or.inr (Or.inr (Or.inl ⟨d, (AttemptOutcome.failure.inj h).symm⟩))
  | otherError d =>
      exact Or.inr (Or.inr (Or.inr (Or.inr ⟨d, (AttemptOutcome.failure.inj h).symm⟩)))

lemma classify_of_not_success (loads : String → Except String PyVal) (o : TransportOutcome)
    (h : isSuccessOutcome loads o = false) :
    ∃ m, classifyAttempt loads o = AttemptOutcome.failure m := by
  cases o with
  | response s b =>
      by_cases hs : s = 200
      · subst hs
        simp only [isSuccessOutcome, beq_self_eq_true, Bool.true_and] at h
        cases hl : loads b with
        | ok w => rw [hl] at h; exact Bool.noConfusion h
        | error e =>
            exact ⟨"Invalid JSON: " ++ e, by simp [classifyAttempt, hl]⟩
      · exact ⟨"HTTP " ++ toString s, by simp [classifyAttempt, hs]⟩
  | timeout => exact ⟨"Timeout", rfl⟩
  | clientError d => exact ⟨"Client error: " ++ d, rfl⟩
  | otherError d => exact ⟨"Unexpected error: " ++ d, rfl⟩

lemma fetchAux_success_shape (cfg : FetcherConfig) (loads : String → Except String PyVal)
    (transport : Nat → TransportOutcome) (url : String) :
    ∀ fuel attempt,
      (fetchAux cfg loads transport url fuel attempt).1.success = true →
      (fetchAux cfg loads transport url fuel attempt).1.error = Option.none ∧
      ∃ k body, transport k = TransportOutcome.response 200 body ∧
        loads body = Except.ok (fetchAux cfg loads transport url fuel attempt).1.content := by
  intro fuel
  induction fuel with
  | zero => intro attempt h; simp [fetchAux] at h
  | succ n ih =>
      intro attempt h
      cases hcl : classifyAttempt loads (transport attempt) with
      | success v =>
          simp only [fetchAux, hcl]
          obtain ⟨body, hb, hl⟩ := classify_success loads (transport attempt) v hcl
          exact ⟨trivial, attempt, body, hb, hl⟩
      | failure msg =>
          by_cases heq : attempt = cfg.max_retries
          · simp only [fetchAux, hcl, if_pos heq] at h
            exact Bool.noConfusion h
          · simp only [fetchAux, hcl, if_neg heq] at h ⊢
            exact ih (attempt + 1) h

lemma fetchAux_failure_shape (cfg : FetcherConfig) (loads : String → Except String PyVal)
    (transport : Nat → TransportOutcome) (url : String) :
    ∀ fuel attempt,
      (fetchAux cfg loads transport url fuel attempt).1.success = false →
      (fetchAux cfg loads transport url fuel attempt).1.content = PyVal.none ∧
      ∃ m, (fetchAux cfg loads transport url fuel attempt).1.error = some m := by
  intro fuel
  induction fuel with
  | zero => intro attempt h; exact ⟨rfl, "Max retries exceeded", rfl⟩
  | succ n ih =>
      intro attempt h
      cases hcl : classifyAttempt loads (transport attempt) with
      | success v =>
          simp only [fetchAux, hcl] at h
          exact Bool.noConfusion h
      | failure msg =>
          by_cases heq : attempt = cfg.max_retries
          · simp only [fetchAux, hcl, if_pos heq]
            exact ⟨trivial, msg, rfl⟩
          · simp only [fetchAux, hcl, if_neg heq] at h ⊢
            exact ih (attempt + 1) h

lemma fetchAux_error_form (cfg : FetcherConfig) (loads : String → Except String PyVal)
    (transport : Nat → TransportOutcome) (url : String) :
    ∀ fuel attempt, attempt ≤ cfg.max_retries → attempt + fuel = cfg.max_retries + 1 →
      (fetchAux cfg loads transport url fuel attempt).1.success = false →
      ∃ m, (fetchAux cfg loads transport url fuel attempt).1.error = some m ∧
        codeErrorForm m := by
  intro fuel
  induction fuel with
  | zero => intro attempt h1 h2; omega
  | succ n ih =>
      intro attempt h1 h2 h
      cases hcl : classifyAttempt loads (transport attempt) with
      | success v =>
          simp only [fetchAux, hcl] at h
          exact Bool.noConfusion h
      | failure msg =>
          by_cases heq : attempt = cfg.max_retries
          · simp only [fetchAux, hcl, if_pos heq]
            exact ⟨msg, rfl, classify_failure_form loads (transport attempt) msg hcl⟩
          · simp only [fetchAux, hcl, if_neg heq] at h ⊢
            exact ih (attempt + 1) (by omega) (by omega) h

lemma fetchAux_all_fail (cfg : FetcherConfig) (loads : String → Except String PyVal)
    (transport : Nat → TransportOutcome) (url : String)
    (hfail : ∀ k, k ≤ cfg.max_retries → isSuccessOutcome loads (transport k) = false) :
    ∀ fuel attempt, attempt ≤ cfg.max_retries → attempt + fuel = cfg.max_retries + 1 →
      (fetchAux cfg loads transport url fuel attempt).1.success = false ∧
      callCount (fetchAux cfg loads transport url fuel attempt).2 = fuel := by
  intro fuel
  induction fuel with
  | zero => intro attempt h1 h2; omega
  | succ n ih =>
      intro attempt h1 h2
      obtain ⟨msg, hcl⟩ :=
        classify_of_not_success loads (transport attempt) (hfail attempt h1)
      by_cases heq : attempt = cfg.max_retries
      · have hn : n = 0 := by omega
        subst hn
        simp only [fetchAux, hcl, if_pos heq]
        exact ⟨trivial, by simp [callCount]⟩
      · have hrec := ih (attempt + 1) (by omega) (by omega)
        simp only [fetchAux, hcl, if_neg heq]
        refine ⟨hrec.1, ?_⟩
        have hlt : attempt < cfg.max_retries := by omega
        rw [if_pos hlt, callCount_cons_call, callCount_append, callCount_cons_sleep,
          callCount_nil, hrec.2]
        omega

lemma foldl_total (l : List FetchResult) :
    ∀ st : RunStats, ∀ sink : List SinkRecord,
      (l.foldl processResult (st, sink)).1.total = st.total := by
  induction l with
  | nil => intro st sink; rfl
  | cons r t ih =>
      intro st sink
      simp only [List.foldl_cons, processResult]
      split
      · exact ih _ _
      · exact ih _ _

lemma foldl_counts (l : List FetchResult) :
    ∀ st : RunStats, ∀ sink : List SinkRecord,
      (l.foldl processResult (st, sink)).1.successful +
        (l.foldl processResult (st, sink)).1.failed =
      st.successful + st.failed + l.length := by
  induction l with
  | nil => intro st sink; simp
  | cons r t ih =>
      intro st sink
      simp only [List.foldl_cons, processResult, List.length_cons]
      split
      · have h := ih { st with successful := st.successful + 1 }
          (sink ++ [{ url := r.url, content := r.content }])
        simp only [] at h
        omega
      · have h := ih { st with failed := st.failed + 1 } sink
        simp only [] at h
        omega

lemma foldl_sink (l : List FetchResult) :
    ∀ st : RunStats, ∀ sink : List SinkRecord,
      (l.foldl processResult (st, sink)).2 = sink ++ l.filterMap writeRecord := by
  induction l with
  | nil => intro st sink; simp
  | cons r t ih =>
      intro st sink
      simp only [List.foldl_cons, List.filterMap_cons, processResult, writeRecord]
      split
      · simp [ih]
      · simp [ih]

lemma countEx_nil : countEx [] = 0 := rfl

lemma countEx_append (a b : List TaskPhase) :
    countEx (a ++ b) = countEx a + countEx b := by
  simp [countEx, List.filter_append]

lemma countEx_cons (x : TaskPhase) (l : List TaskPhase) :
    countEx (x :: l) = (if isEx x = true then 1 else 0) + countEx l := by
  by_cases h : isEx x = true
  · simp [countEx, List.filter_cons, h]
    omega
  · simp [countEx, List.filter_cons, h]

lemma countEx_replicate (n : Nat) :
    countEx (List.replicate n TaskPhase.pending) = 0 := by
  induction n with
  | zero => rfl
  | succ k ih => simp [List.replicate_succ, countEx_cons, isEx, ih]

lemma semStep_inv (maxConcurrent : Nat) {s t : SemState} (h : SemStep s t)
    (hinv : s.sem + countEx s.tasks = maxConcurrent) :
    t.sem + countEx t.tasks = maxConcurrent := by
  cases h <;>
    simp [countEx_append, countEx_cons, isEx] at hinv ⊢ <;>
    omega

lemma reachable_inv (maxConcurrent n : Nat) {s : SemState}
    (h : Reachable maxConcurrent n s) :
    s.sem + countEx s.tasks = maxConcurrent := by
  have h' : Relation.ReflTransGen SemStep (initState maxConcurrent n) s := h
  clear h
  induction h' with
  | refl => simp [initState, countEx_replicate]
  | tail _ hstep ih => exact semStep_inv maxConcurrent hstep ih

lemma fetchAux_url (cfg : FetcherConfig) (loads : String → Except String PyVal)
    (transport : Nat → TransportOutcome) (url : String) :
    ∀ fuel attempt, (fetchAux cfg loads transport url fuel attempt).1.url = url := by
  intro fuel
  induction fuel with
  | zero => intro attempt; rfl
  | succ n ih =>
      intro attempt
      cases hcl : classifyAttempt loads (transport attempt) with
      | success v => simp [fetchAux, hcl]
      | failure msg =>
          by_cases heq : attempt = cfg.max_retries
          · simp [fetchAux, hcl, if_pos heq]
          · simp only [fetchAux, hcl, if_neg heq]
            exact ih (attempt + 1)

/-- Claim C1: for every configuration (the retry budget `max_retries` is a
natural number, so the `maxRetries >= 0` proviso holds by type), every
transport behaviour, every content parser and every URL, one fetch
operation performs at most `max_retries + 1` transport exchanges (calls to
`session.get`) before producing its terminal `FetchResult`. -/
theorem C1_transport_exchange_budget (cfg : FetcherConfig)
    (loads : String → Except String PyVal) (transport : Nat → TransportOutcome)
    (url : String) :
    callCount (_fetch_single_url cfg loads transport url).2 ≤ cfg.max_retries + 1 :=
  callCount_fetchAux_le cfg loads transport url (cfg.max_retries + 1) 0

/-- Claim C2: every backoff sleep recorded in the trace of a fetch
operation belongs to an attempt index `k < max_retries` (so a sleep occurs
only when a further attempt remains) and sleeps exactly
`baseDelay * (k + 1)`; consequently delays are strictly increasing in the
attempt index; and every attempt after the first is preceded in the trace
by the backoff sleep of the previous attempt with exactly that delay. -/
theorem C2_backoff_linear (cfg : FetcherConfig) (loads : String → Except String PyVal)
    (transport : Nat → TransportOutcome) (url : String) :
    (∀ k d, FetchEvent.sleepEv k d ∈ (_fetch_single_url cfg loads transport url).2 →
       k < cfg.max_retries ∧ d = baseDelay * (k + 1)) ∧
    (∀ k1 d1 k2 d2, FetchEvent.sleepEv k1 d1 ∈ (_fetch_single_url cfg loads transport url).2 →
       FetchEvent.sleepEv k2 d2 ∈ (_fetch_single_url cfg loads transport url).2 →
       k1 < k2 → d1 < d2) ∧
    (∀ j, 0 < j →
       FetchEvent.transportCall j ∈ (_fetch_single_url cfg loads transport url).2 →
       FetchEvent.sleepEv (j - 1) (baseDelay * j) ∈
         (_fetch_single_url cfg loads transport url).2) := by
  refine ⟨?_, ?_, ?_⟩
  · intro k d h
    exact sleepEv_mem_fetchAux cfg loads transport url (cfg.max_retries + 1) 0 k d h
  · intro k1 d1 k2 d2 h1 h2 hk
    obtain ⟨-, rfl⟩ := sleepEv_mem_fetchAux cfg loads transport url _ 0 k1 d1 h1
    obtain ⟨-, rfl⟩ := sleepEv_mem_fetchAux cfg loads transport url _ 0 k2 d2 h2
    simp only [baseDelay]
    omega
  · intro j hj h
    exact call_implies_sleep cfg loads transport url (cfg.max_retries + 1) 0 j
      (Nat.zero_le _) (by omega) hj h

/-- Claim C2 witness: with the default configuration and a transport that
always times out, the trace contains the sleep of attempt 0, the delays of
attempts 0 and 1 are strictly increasing, and transport call 1 is preceded
by the sleep of attempt 0. -/
theorem C2_backoff_linear_witness :
    ((0 : Nat) < cfgDefault.max_retries ∧ (1 : Nat) = baseDelay * (0 + 1)) ∧
    (1 : Nat) < 2 ∧
    FetchEvent.sleepEv 0 (baseDelay * 1) ∈
      (_fetch_single_url cfgDefault loadsDemo trTimeout "u").2 :=
  ⟨(C2_backoff_linear cfgDefault loadsDemo trTimeout "u").1 0 1 (by decide),
   (C2_backoff_linear cfgDefault loadsDemo trTimeout "u").2.1 0 1 1 2 (by decide)
     (by decide) (by decide),
   (C2_backoff_linear cfgDefault loadsDemo trTimeout "u").2.2 1 (by decide) (by decide)⟩

/-- Claim C3: for every run whose arrival order is a permutation of the
per-URL results, the statistics satisfy `total = len(urls)`, after
completion `successful + failed = total`, and at every intermediate point
(after processing any prefix of the arrivals) `successful + failed ≤
total`. -/
theorem C3_statistics_invariant (cfg : FetcherConfig)
    (loads : String → Except String PyVal)
    (transports : String → Nat → TransportOutcome) (urls : List String)
    (arrival : List FetchResult)
    (hperm : arrival.Perm (runResults cfg loads transports urls)) :
    (fetch_urls urls arrival).1.total = urls.length ∧
    (fetch_urls urls arrival).1.successful + (fetch_urls urls arrival).1.failed =
      (fetch_urls urls arrival).1.total ∧
    ∀ k, (fetch_urls urls (arrival.take k)).1.successful +
        (fetch_urls urls (arrival.take k)).1.failed ≤
      (fetch_urls urls (arrival.take k)).1.total := by
  have hlen : arrival.length = urls.length := by
    rw [hperm.length_eq]
    simp [runResults]
  refine ⟨?_, ?_, ?_⟩
  · exact foldl_total arrival _ _
  · simp only [fetch_urls]
    rw [foldl_counts arrival { total := urls.length, successful := 0, failed := 0 } [],
      foldl_total arrival { total := urls.length, successful := 0, failed := 0 } []]
    show 0 + 0 + arrival.length = urls.length
    omega
  · intro k
    simp only [fetch_urls]
    rw [foldl_counts (arrival.take k)
        { total := urls.length, successful := 0, failed := 0 } [],
      foldl_total (arrival.take k)
        { total := urls.length, successful := 0, failed := 0 } []]
    have hkle : (arrival.take k).length ≤ arrival.length :=
      List.length_take_le' k arrival
    show 0 + 0 + (arrival.take k).length ≤ urls.length
    omega

/-- Claim C3 witness: a concrete two-URL run (one URL succeeds, one times
out) in which the statistics equalities and the prefix inequality at
`k = 1` are instances of the claim theorem. -/
theorem C3_statistics_invariant_witness :
    (fetch_urls ["a", "b"] (runResults cfgDefault loadsDemo transportsDemo ["a", "b"])).1.total = 2 ∧
    (fetch_urls ["a", "b"] (runResults cfgDefault loadsDemo transportsDemo ["a", "b"])).1.successful +
      (fetch_urls ["a", "b"] (runResults cfgDefault loadsDemo transportsDemo ["a", "b"])).1.failed =
      (fetch_urls ["a", "b"] (runResults cfgDefault loadsDemo transportsDemo ["a", "b"])).1.total ∧
    (fetch_urls ["a", "b"] ((runResults cfgDefault loadsDemo transportsDemo ["a", "b"]).take 1)).1.successful +
      (fetch_urls ["a", "b"] ((runResults cfgDefault loadsDemo transportsDemo ["a", "b"]).take 1)).1.failed ≤
      (fetch_urls ["a", "b"] ((runResults cfgDefault loadsDemo transportsDemo ["a", "b"]).take 1)).1.total := by
  have h := C3_statistics_invariant cfgDefault loadsDemo transportsDemo ["a", "b"] _
    (List.Perm.refl _)
  exact ⟨h.1, h.2.1, h.2.2 1⟩

/-- Claim C4 counterexample: a run over one URL whose transport answers
200 with body `null` yields a terminal result with `success = true`, yet
the sink is empty and the result is even counted as failed — so the sink
does not contain a record for every `success == true` result, refuting
the claim as stated.  This is the guard `result.success and result.content
is not None` at line 172: `json.loads("null")` is Python `None`. -/
theorem C4_claim_counterexample :
    ((runResults cfgDefault loadsDemo (fun _ => trNull) ["u"]).map FetchResult.success =
      [true]) ∧
    (fetch_urls ["u"] (runResults cfgDefault loadsDemo (fun _ => trNull) ["u"])).2 = [] ∧
    (fetch_urls ["u"] (runResults cfgDefault loadsDemo (fun _ => trNull) ["u"])).1.failed = 1 :=
  ⟨rfl, rfl, rfl⟩

/-- Claim C4 (amended): the sink is exactly the completion-ordered list of
one record per `FetchResult` with `success == true` and non-`None`
content; results with `success == false`, and success results whose parsed
content is `None`, produce no record; and every sink record's content is
the exact value returned by the parser for the 200-response body that
produced `Success` for that URL. -/
theorem C4_sink_contents (cfg : FetcherConfig)
    (loads : String → Except String PyVal)
    (transports : String → Nat → TransportOutcome) (urls : List String)
    (arrival : List FetchResult)
    (hperm : arrival.Perm (runResults cfg loads transports urls)) :
    (fetch_urls urls arrival).2 = arrival.filterMap writeRecord ∧
    ∀ rec, rec ∈ (fetch_urls urls arrival).2 →
      ∃ k body, transports rec.url k = TransportOutcome.response 200 body ∧
        loads body = Except.ok rec.content := by
  have hsink : (fetch_urls urls arrival).2 = arrival.filterMap writeRecord := by
    have h := foldl_sink arrival
      { total := urls.length, successful := 0, failed := 0 } []
    simpa [fetch_urls] using h
  refine ⟨hsink, ?_⟩
  intro rec hrec
  rw [hsink] at hrec
  obtain ⟨r, hr, hwr⟩ := List.mem_filterMap.mp hrec
  have hr' : r ∈ runResults cfg loads transports urls := hperm.mem_iff.mp hr
  obtain ⟨u, hu, hru⟩ := List.mem_map.mp hr'
  have hcond : (r.success && !(PyVal.isNone r.content)) = true := by
    by_contra hc
    simp only [writeRecord, hc] at hwr
    rw [if_neg ?_] at hwr
    · exact Option.noConfusion hwr
    · simp only [Bool.not_eq_true] at hc
      simp [hc]
  have hsucc : r.success = true := (Bool.and_eq_true_iff.mp hcond).1
  have hrecv : rec = { url := r.url, content := r.content } := by
    simp only [writeRecord, if_pos hcond] at hwr
    exact (Option.some.inj hwr).symm
  subst hru
  have hshape := (fetchAux_success_shape cfg loads (transports u) u
    (cfg.max_retries + 1) 0 hsucc).2
  have hurl : (_fetch_single_url cfg loads (transports u) u).1.url = u :=
    fetchAux_url cfg loads (transports u) u (cfg.max_retries + 1) 0
  rw [hrecv]
  simp only [hurl]
  exact hshape

/-- Claim C4 witness: the sink of the concrete two-URL run equals the
filter-map characterisation, by the claim theorem applied at the identity
permutation. -/
theorem C4_sink_contents_witness :
    (fetch_urls ["a", "b"] (runResults cfgDefault loadsDemo transportsDemo ["a", "b"])).2 =
      (runResults cfgDefault loadsDemo transportsDemo ["a", "b"]).filterMap writeRecord :=
  (C4_sink_contents cfgDefault loadsDemo transportsDemo ["a", "b"] _ (List.Perm.refl _)).1

/-- Claim C5 counterexample: with a transport answering 200 and body
`null`, the fetch operation returns `success = true` with `content = None`
(the parse result of JSON `null` is the Python value `None`), refuting
`success == true` implies `content` is present. -/
theorem C5_claim_counterexample :
    (_fetch_single_url cfgDefault loadsDemo trNull "u").1.success = true ∧
      (_fetch_single_url cfgDefault loadsDemo trNull "u").1.content = PyVal.none :=
  ⟨rfl, rfl⟩

/-- Claim C5 (amended): `success == true` implies `error` is absent and
`content` equals the exact value the parser returned for the 200-response
body that produced the success — a value that is `None` exactly when that
body parses to JSON `null`, so content presence is not guaranteed;
`success == false` implies `content` is absent and `error` is present. -/
theorem C5_result_field_discipline (cfg : FetcherConfig)
    (loads : String → Except String PyVal) (transport : Nat → TransportOutcome)
    (url : String) :
    ((_fetch_single_url cfg loads transport url).1.success = true →
       (_fetch_single_url cfg loads transport url).1.error = Option.none ∧
       ∃ k body, transport k = TransportOutcome.response 200 body ∧
         loads body = Except.ok (_fetch_single_url cfg loads transport url).1.content) ∧
    ((_fetch_single_url cfg loads transport url).1.success = false →
       (_fetch_single_url cfg loads transport url).1.content = PyVal.none ∧
       ∃ m, (_fetch_single_url cfg loads transport url).1.error = some m) :=
  ⟨fetchAux_success_shape cfg loads transport url (cfg.max_retries + 1) 0,
   fetchAux_failure_shape cfg loads transport url (cfg.max_retries + 1) 0⟩

/-- Claim C5 witness: at a concrete successful fetch the error field is
absent, and at a concrete failed fetch the content field is absent, both
by the claim theorem with its hypotheses evaluated by `decide`. -/
theorem C5_result_field_discipline_witness :
    (_fetch_single_url cfgDefault loadsDemo trOne "a").1.error = Option.none ∧
      (_fetch_single_url cfgDefault loadsDemo trTimeout "b").1.content = PyVal.none :=
  ⟨((C5_result_field_discipline cfgDefault loadsDemo trOne "a").1 (by decide)).1,
   ((C5_result_field_discipline cfgDefault loadsDemo trTimeout "b").2 (by decide)).1⟩

/-- Claim C6: whenever no attempt of a URL produces a success outcome (any
mixture of timeouts, client errors, non-200 statuses, parse failures and
unexpected exceptions), the fetch operation absorbs every error and
returns a terminal `FetchResult` with `success = false` and an error
message after exactly `max_retries + 1` transport exchanges; no exception
crosses the boundary (the embedded operation is a total function into
`FetchResult`), and the orchestrator tallies every arriving result, so one
URL's failure never aborts the run. -/
theorem C6_error_absorption (cfg : FetcherConfig)
    (loads : String → Except String PyVal) (transport : Nat → TransportOutcome)
    (url : String)
    (hfail : ∀ k, k ≤ cfg.max_retries → isSuccessOutcome loads (transport k) = false) :
    (_fetch_single_url cfg loads transport url).1.success = false ∧
      (∃ m, (_fetch_single_url cfg loads transport url).1.error = some m) ∧
      callCount (_fetch_single_url cfg loads transport url).2 = cfg.max_retries + 1 ∧
      ∀ urls arrival,
        (fetch_urls urls arrival).1.successful + (fetch_urls urls arrival).1.failed =
          arrival.length := by
  have hmain := fetchAux_all_fail cfg loads transport url hfail
    (cfg.max_retries + 1) 0 (Nat.zero_le _) (by omega)
  refine ⟨hmain.1, (fetchAux_failure_shape cfg loads transport url _ 0 hmain.1).2,
    hmain.2, ?_⟩
  intro urls arrival
  have h := foldl_counts arrival
    { total := urls.length, successful := 0, failed := 0 } []
  simpa [fetch_urls] using h

/-- Claim C6 witness: under a transport that always times out with the
default configuration, the terminal result is a failure produced after
exactly `max_retries + 1` exchanges, by the claim theorem with the
all-attempts-fail hypothesis evaluated by `decide`. -/
theorem C6_error_absorption_witness :
    (_fetch_single_url cfgDefault loadsDemo trTimeout "u").1.success = false ∧
      callCount (_fetch_single_url cfgDefault loadsDemo trTimeout "u").2 =
        cfgDefault.max_retries + 1 :=
  ⟨(C6_error_absorption cfgDefault loadsDemo trTimeout "u" (by decide)).1,
   (C6_error_absorption cfgDefault loadsDemo trTimeout "u" (by decide)).2.2.1⟩

/-- Claim C7 counterexample: a terminal failure caused by an unparsable
200-response body carries the error string `Invalid JSON: <detail>` (line
86 of the source), which is not of any of the five forms the claim lists —
in particular not `Invalid content: <detail>`. -/
theorem C7_claim_counterexample :
    (_fetch_single_url cfgDefault loadsDemo trBadBody "u").1.error =
        some "Invalid JSON: Expecting value: garbage" ∧
      ¬ specifiedErrorForm "Invalid JSON: Expecting value: garbage" := by
  constructor
  · decide
  · simp only [specifiedErrorForm, hasForm_iff]
    decide

/-- Claim C7 (amended): every error string carried by a terminal
`FetchResult` is exactly one of `HTTP <code>`, `Timeout`,
`Client error: <detail>`, `Invalid JSON: <detail>` or
`Unexpected error: <detail>`, according to the outcome that persisted
through the last permitted attempt. -/
theorem C7_terminal_error_taxonomy (cfg : FetcherConfig)
    (loads : String → Except String PyVal) (transport : Nat → TransportOutcome)
    (url : String) (m : String)
    (h : (_fetch_single_url cfg loads transport url).1.error = some m) :
    codeErrorForm m := by
  by_cases hs : (_fetch_single_url cfg loads transport url).1.success = true
  · have he := (fetchAux_success_shape cfg loads transport url
      (cfg.max_retries + 1) 0 hs).1
    rw [_fetch_single_url] at h
    rw [he] at h
    exact Option.noConfusion h
  · have hs' : (_fetch_single_url cfg loads transport url).1.success = false := by
      simp only [Bool.not_eq_true] at hs
      exact hs
    obtain ⟨m', hm', hf⟩ := fetchAux_error_form cfg loads transport url
      (cfg.max_retries + 1) 0 (Nat.zero_le _) (by omega) hs'
    rw [_fetch_single_url] at h
    rw [hm'] at h
    rw [← Option.some.inj h]
    exact hf

/-- Claim C7 witness: the error string of a concrete always-timing-out run
is of the code's taxonomy, by the claim theorem with its hypothesis
evaluated by `decide`. -/
theorem C7_terminal_error_taxonomy_witness : codeErrorForm "Timeout" :=
  C7_terminal_error_taxonomy cfgDefault loadsDemo trTimeout "u" "Timeout" (by decide)

/-- Claim C8: in every state reachable by the interleaving semantics of a
run, at most `maxConcurrent` tasks are simultaneously inside a transport
exchange, and the stronger accounting invariant holds: free slots plus
tasks in exchange always equal `maxConcurrent`, i.e. a slot is held
exactly while its task is in the exchange — never during a backoff sleep,
since the release transition and the entry into backoff are one step,
mirroring the sleep placed outside the `async with` block. -/
theorem C8_concurrency_bound (maxConcurrent n : Nat) (s : SemState)
    (h : Reachable maxConcurrent n s) :
    countEx s.tasks ≤ maxConcurrent ∧
      s.sem + countEx s.tasks = maxConcurrent := by
  have hi := reachable_inv maxConcurrent n h
  exact ⟨by omega, hi⟩

/-- Claim C8 witness: the state in which the first of three tasks has
acquired one of two slots and is mid-exchange is reachable in one step,
and satisfies both bounds by the claim theorem. -/
theorem C8_concurrency_bound_witness :
    countEx (SemState.mk 1 [TaskPhase.exchanging, TaskPhase.pending, TaskPhase.pending]).tasks ≤ 2 ∧
      (SemState.mk 1 [TaskPhase.exchanging, TaskPhase.pending, TaskPhase.pending]).sem +
        countEx (SemState.mk 1 [TaskPhase.exchanging, TaskPhase.pending, TaskPhase.pending]).tasks = 2 :=
  C8_concurrency_bound 2 3 _
    (Relation.ReflTransGen.single
      (SemStep.acquire 1 [] [TaskPhase.pending, TaskPhase.pending]))

/-- Claim C9: the fallback after the retry loop (lines 139-144), which
would return a `FetchResult` with error `Max retries exceeded`, is
unreachable: for every configuration, transport, parser and URL the trace
of the fetch operation contains zero `fallbackReturn` events — every path
through the last permitted attempt returns inside the loop. -/
theorem C9_fallback_unreachable (cfg : FetcherConfig)
    (loads : String → Except String PyVal) (transport : Nat → TransportOutcome)
    (url : String) :
    (_fetch_single_url cfg loads transport url).2.count FetchEvent.fallbackReturn = 0 :=
  List.count_eq_zero.mpr
    (fetchAux_no_fallback cfg loads transport url (cfg.max_retries + 1) 0
      (Nat.zero_le _) (by omega))

/-- Claim C10: a run over the empty URL list returns the empty-statistics
result (`total = 0`, `successful = 0`, `failed = 0`) and writes no record
to the sink. -/
theorem C10_empty_input (cfg : FetcherConfig)
    (loads : String → Except String PyVal)
    (transports : String → Nat → TransportOutcome) (arrival : List FetchResult)
    (hperm : arrival.Perm (runResults cfg loads transports [])) :
    (fetch_urls [] arrival).1.total = 0 ∧
      (fetch_urls [] arrival).1.successful = 0 ∧
      (fetch_urls [] arrival).1.failed = 0 ∧
      (fetch_urls [] arrival).2 = [] := by
  have hnil : arrival = [] := List.Perm.eq_nil hperm
  subst hnil
  exact ⟨rfl, rfl, rfl, rfl⟩

/-- Claim C10 witness: the empty run, with the permutation hypothesis
discharged at the empty arrival list. -/
theorem C10_empty_input_witness :
    (fetch_urls [] []).1.total = 0 ∧
      (fetch_urls [] []).1.successful = 0 ∧
      (fetch_urls [] []).1.failed = 0 ∧
      (fetch_urls [] ([] : List FetchResult)).2 = [] :=
  C10_empty_input cfgDefault loadsDemo transportsDemo [] (List.Perm.refl _)

end AsyncHttpMod
